import Mathlib

/-!
# Verification of the `agent_tools.code` static-analysis engine

Shallow embedding, in Lean 4, of the Python static code-analysis engine in
`src/agent_tools/code` (complexity, naming, architecture and duplication
analyzers plus their orchestrators), together with proofs settling the
frozen claims about this code.

Modelling conventions:
* Python's untyped `ast` nodes become the single inductive `PNode`; Python
  keeps statements, expressions, comprehension clauses, exception handlers
  and boolean-operator instances in one universe discriminated with
  `isinstance`, and `PNode` mirrors that.  Only the node kinds the analyzed
  functions dispatch on are embedded; all remaining expression shapes are
  representable through the generic constructors.
* `ast.walk` (breadth-first in CPython) is embedded as a depth-first
  pre-order enumeration `walk`; every use below folds a commutative,
  per-node contribution over the enumeration, for which only the *set* of
  visited nodes (each exactly once) matters, never the order.
* Machine integers are `Nat` (all metric values in the source are
  non-negative Python ints); `lines - 20` under Python's `if lines > 20`
  guard coincides with truncated subtraction.
* Fallible parsing (`try ... except (SyntaxError, UnicodeDecodeError)`)
  becomes the total function `parse_file : ParseOutcome → Option PModule`.
-/

namespace AgentTools

/-! ## Embedded definitions -/

/-- Value payload of `ast.Constant` (`isinstance(x, ast.Constant)` is true
for string, numeric, boolean, `None` and `Ellipsis` literals alike). -/
inductive CVal where
  | str (s : String)
  | int (n : Nat)
  | bool (b : Bool)
  | none
  | ellipsis
deriving DecidableEq

/-- `ast.And` / `ast.Or` discriminator. -/
inductive BoolK where
  | and
  | or
deriving DecidableEq

/-- Embedded Python AST node.  One constructor per node kind that the
analyzers in `complexity.py`, `analyze.py` and `refactor.py` dispatch on,
plus generic expression constructors (`constNode`, `nameNode`, `call`,
`compare`, `binOp`) so arbitrary expression bodies are representable.
Function definitions carry their parameter-list arity triple
(`args.posonlyargs`, `args.args`, `args.kwonlyargs`) and the `lineno` /
`end_lineno` location attributes used by the analyzers. -/
inductive PNode where
  | sIf (test : PNode) (body orelse : List PNode)
  | sWhile (test : PNode) (body orelse : List PNode)
  | sFor (target iter : PNode) (body orelse : List PNode)
  | sAsyncFor (target iter : PNode) (body orelse : List PNode)
  | sTry (body : List PNode) (handlers : List PNode) (orelse finalbody : List PNode)
  | excHandler (body : List PNode)
  | sWith (ctx : PNode) (body : List PNode)
  | sAsyncWith (ctx : PNode) (body : List PNode)
  | sAssert (test : PNode)
  | sExprStmt (value : PNode)
  | sReturnNone
  | sReturn (value : PNode)
  | sAssign (target value : PNode)
  | sPass
  | functionDef (name : String) (posonly args kwonly : Nat) (body : List PNode)
      (lineno : Nat) (endLineno : Option Nat)
  | asyncFunctionDef (name : String) (posonly args kwonly : Nat) (body : List PNode)
      (lineno : Nat) (endLineno : Option Nat)
  | boolOp (op : BoolK) (values : List PNode)
  | opNode (k : BoolK)
  | comprehension (target iter : PNode) (ifs : List PNode)
  | listComp (elt : PNode) (generators : List PNode)
  | constNode (v : CVal)
  | nameNode (id : String)
  | call (func : PNode) (args : List PNode)
  | compare (left : PNode) (comparators : List PNode)
  | binOp (left right : PNode)

mutual

/-- `ast.walk(node)`: the node itself followed by every descendant, each
exactly once.  The `op` field of a `BoolOp` is itself an AST node
(`ast.And()` / `ast.Or()`) and is therefore enumerated, as CPython's
`iter_child_nodes` does. -/
def walk : PNode → List PNode
  | .sIf t b o => .sIf t b o :: (walk t ++ walkList b ++ walkList o)
  | .sWhile t b o => .sWhile t b o :: (walk t ++ walkList b ++ walkList o)
  | .sFor tg it b o => .sFor tg it b o :: (walk tg ++ walk it ++ walkList b ++ walkList o)
  | .sAsyncFor tg it b o =>
      .sAsyncFor tg it b o :: (walk tg ++ walk it ++ walkList b ++ walkList o)
  | .sTry b h o f => .sTry b h o f :: (walkList b ++ walkList h ++ walkList o ++ walkList f)
  | .excHandler b => .excHandler b :: walkList b
  | .sWith c b => .sWith c b :: (walk c ++ walkList b)
  | .sAsyncWith c b => .sAsyncWith c b :: (walk c ++ walkList b)
  | .sAssert t => .sAssert t :: walk t
  | .sExprStmt v => .sExprStmt v :: walk v
  | .sReturnNone => [.sReturnNone]
  | .sReturn v => .sReturn v :: walk v
  | .sAssign t v => .sAssign t v :: (walk t ++ walk v)
  | .sPass => [.sPass]
  | .functionDef n p a k b l e => .functionDef n p a k b l e :: walkList b
  | .asyncFunctionDef n p a k b l e => .asyncFunctionDef n p a k b l e :: walkList b
  | .boolOp op vs => .boolOp op vs :: (.opNode op :: walkList vs)
  | .opNode k => [.opNode k]
  | .comprehension t it ifs => .comprehension t it ifs :: (walk t ++ walk it ++ walkList ifs)
  | .listComp e gs => .listComp e gs :: (walk e ++ walkList gs)
  | .constNode v => [.constNode v]
  | .nameNode s => [.nameNode s]
  | .call f as => .call f as :: (walk f ++ walkList as)
  | .compare l rs => .compare l rs :: (walk l ++ walkList rs)
  | .binOp l r => .binOp l r :: (walk l ++ walk r)

/-- `walk` extended over a list of sibling nodes. -/
def walkList : List PNode → List PNode
  | [] => []
  | n :: rest => walk n ++ walkList rest

end

/-- The per-node contribution of the `for child in ast.walk(node)` loop body
of `_calculate_cyclomatic` (`complexity.py` lines 75-89): the `isinstance`
dispatch chain adding to the running `complexity` accumulator. -/
def cycloStep (acc : Nat) (child : PNode) : Nat :=
  match child with
  | .sIf _ _ _ | .sWhile _ _ _ | .sFor _ _ _ _ | .sAsyncFor _ _ _ _ => acc + 1
  | .excHandler _ => acc + 1
  | .opNode _ => acc + 1
  | .comprehension _ _ ifs => (acc + 1) + (if ifs.length ≠ 0 then ifs.length else 0)
  | .sAssert _ => acc + 1
  | .boolOp _ vs => acc + (if vs.length > 2 then vs.length - 2 else 0)
  | _ => acc

/-- `_calculate_cyclomatic` (`complexity.py` lines 71-91): base complexity 1,
then the `isinstance` chain applied to every walked node. -/
def calculate_cyclomatic (node : PNode) : Nat :=
  (walk node).foldl cycloStep 1

/-- Spec-side category: an `if`/`while`/`for` (sync or async) statement. -/
def isBranchStmt : PNode → Bool
  | .sIf _ _ _ | .sWhile _ _ _ | .sFor _ _ _ _ | .sAsyncFor _ _ _ _ => true
  | _ => false

/-- Spec-side category: an exception-handler clause (`ast.ExceptHandler`). -/
def isHandlerClause : PNode → Bool
  | .excHandler _ => true
  | _ => false

/-- Spec-side category: a boolean `and`/`or` operator node (`ast.And` /
`ast.Or`; CPython materialises exactly one such node per `ast.BoolOp`). -/
def isBoolOperatorNode : PNode → Bool
  | .opNode _ => true
  | _ => false

/-- Spec-side category: a comprehension clause (`ast.comprehension`). -/
def isComprehensionClause : PNode → Bool
  | .comprehension _ _ _ => true
  | _ => false

/-- Spec-side category: an assertion statement. -/
def isAssertStmt : PNode → Bool
  | .sAssert _ => true
  | _ => false

/-- Spec-side count of filter conditions carried by a comprehension clause. -/
def comprehensionFilterCount : PNode → Nat
  | .comprehension _ _ ifs => ifs.length
  | _ => 0

/-- Spec-side excess-operand weight of a boolean expression: for an
`ast.BoolOp` with more than two operands, `operand_count − 2` (0 for any
other node and for two-operand boolean expressions). -/
def boolOpExcessOperands : PNode → Nat
  | .boolOp _ vs => vs.length - 2
  | _ => 0

/-- A sample function definition exercising every counted category:
`if` with a three-operand `and`, an `assert`, and a comprehension with two
filter conditions. -/
def cycloDemoFn : PNode :=
  .functionDef "demo" 0 1 0
    [ .sIf (.boolOp .and [.nameNode "a", .nameNode "b", .nameNode "c"])
        [.sAssert (.nameNode "d")] [],
      .sExprStmt (.listComp (.nameNode "x")
        [.comprehension (.nameNode "i") (.nameNode "xs")
          [.nameNode "p", .nameNode "q"]]) ]
    1 (some 6)

/-- The nesting node kinds of `_calculate_max_depth` (`complexity.py`
lines 97-100). -/
def isNestingType : PNode → Bool
  | .sIf _ _ _ | .sWhile _ _ _ | .sFor _ _ _ _ | .sAsyncFor _ _ _ _ => true
  | .sWith _ _ | .sAsyncWith _ _ | .sTry _ _ _ _ | .excHandler _ => true
  | _ => false

/-- Depth passed to a child: `depth + 1` when the child is a nesting node. -/
def nestingBump (child : PNode) (depth : Nat) : Nat :=
  if isNestingType child then depth + 1 else depth

mutual

/-- `_calculate_max_depth` (`complexity.py` lines 94-109): maximum over
the start depth and the recursive depth of every direct child, bumping the
depth when descending into a nesting-type child. -/
def calculate_max_depth : PNode → Nat → Nat
  | .sIf t b o, d => max d (max (calculate_max_depth t (nestingBump t d))
      (max (mdChildren b d) (mdChildren o d)))
  | .sWhile t b o, d => max d (max (calculate_max_depth t (nestingBump t d))
      (max (mdChildren b d) (mdChildren o d)))
  | .sFor tg it b o, d => max d (max (calculate_max_depth tg (nestingBump tg d))
      (max (calculate_max_depth it (nestingBump it d))
        (max (mdChildren b d) (mdChildren o d))))
  | .sAsyncFor tg it b o, d => max d (max (calculate_max_depth tg (nestingBump tg d))
      (max (calculate_max_depth it (nestingBump it d))
        (max (mdChildren b d) (mdChildren o d))))
  | .sTry b h o f, d => max d (max (mdChildren b d)
      (max (mdChildren h d) (max (mdChildren o d) (mdChildren f d))))
  | .excHandler b, d => max d (mdChildren b d)
  | .sWith c b, d => max d (max (calculate_max_depth c (nestingBump c d)) (mdChildren b d))
  | .sAsyncWith c b, d =>
      max d (max (calculate_max_depth c (nestingBump c d)) (mdChildren b d))
  | .sAssert t, d => max d (calculate_max_depth t (nestingBump t d))
  | .sExprStmt v, d => max d (calculate_max_depth v (nestingBump v d))
  | .sReturnNone, d => d
  | .sReturn v, d => max d (calculate_max_depth v (nestingBump v d))
  | .sAssign t v, d => max d (max (calculate_max_depth t (nestingBump t d))
      (calculate_max_depth v (nestingBump v d)))
  | .sPass, d => d
  | .functionDef _ _ _ _ b _ _, d => max d (mdChildren b d)
  | .asyncFunctionDef _ _ _ _ b _ _, d => max d (mdChildren b d)
  | .boolOp _ vs, d => max d (mdChildren vs d)
  | .opNode _, d => d
  | .comprehension t it ifs, d => max d (max (calculate_max_depth t (nestingBump t d))
      (max (calculate_max_depth it (nestingBump it d)) (mdChildren ifs d)))
  | .listComp e gs, d => max d (max (calculate_max_depth e (nestingBump e d)) (mdChildren gs d))
  | .constNode _, d => d
  | .nameNode _, d => d
  | .call f as, d => max d (max (calculate_max_depth f (nestingBump f d)) (mdChildren as d))
  | .compare l rs, d => max d (max (calculate_max_depth l (nestingBump l d)) (mdChildren rs d))
  | .binOp l r, d => max d (max (calculate_max_depth l (nestingBump l d))
      (calculate_max_depth r (nestingBump r d)))

/-- `_calculate_max_depth` folded over a sibling list of children. -/
def mdChildren : List PNode → Nat → Nat
  | [], d => d
  | c :: rest, d => max (calculate_max_depth c (nestingBump c d)) (mdChildren rest d)

end

/-- `FunctionMetrics` (`complexity.py` lines 14-24). -/
structure FunctionMetrics where
  name : String
  file : String
  line : Nat
  cyclomatic : Nat
  lines : Nat
  max_depth : Nat
  params : Nat
deriving DecidableEq, Repr

/-- `FunctionMetrics.score` (`complexity.py` lines 26-36). -/
def FunctionMetrics.score (m : FunctionMetrics) : Nat :=
  let s1 := m.cyclomatic
  let s2 := if m.lines > 20 then s1 + (m.lines - 20) / 10 else s1
  let s3 := if m.max_depth > 3 then s2 + (m.max_depth - 3) * 2 else s2
  if m.params > 4 then s3 + (m.params - 4) * 2 else s3

/-- `ComplexityVisitor._analyze_function` (`complexity.py` lines 51-68) on a
(sync or async) function-definition node; `none` on any other node.
`lines` is `(node.end_lineno or node.lineno) - node.lineno + 1` and
`params` is `len(args.args) + len(args.posonlyargs) + len(args.kwonlyargs)`. -/
def analyze_function (node : PNode) : Option FunctionMetrics :=
  match node with
  | .functionDef name posonly args kwonly body lineno endLineno =>
      some { name := name, file := "", line := lineno,
             cyclomatic := calculate_cyclomatic (.functionDef name posonly args kwonly body lineno endLineno),
             lines := (endLineno.getD lineno) - lineno + 1,
             max_depth := calculate_max_depth (.functionDef name posonly args kwonly body lineno endLineno) 0,
             params := args + posonly + kwonly }
  | .asyncFunctionDef name posonly args kwonly body lineno endLineno =>
      some { name := name, file := "", line := lineno,
             cyclomatic := calculate_cyclomatic (.asyncFunctionDef name posonly args kwonly body lineno endLineno),
             lines := (endLineno.getD lineno) - lineno + 1,
             max_depth := calculate_max_depth (.asyncFunctionDef name posonly args kwonly body lineno endLineno) 0,
             params := args + posonly + kwonly }
  | _ => none

/-- The `ComplexityVisitor` pass over a parsed module: a metrics record per
function-definition node anywhere in the tree (`generic_visit` recurses, so
nested definitions are recorded independently). -/
def collect_functions (tree : List PNode) : List FunctionMetrics :=
  (walkList tree).filterMap analyze_function

/-- `_format_issues` (`complexity.py` lines 127-138). -/
def format_issues (func : FunctionMetrics) : List String :=
  (if func.cyclomatic > 5 then
    ["cyclomatic complexity " ++ toString func.cyclomatic ++ " (target: ≤5)"] else [])
  ++ (if func.lines > 20 then [toString func.lines ++ " lines (target: ≤20)"] else [])
  ++ (if func.max_depth > 3 then
    ["nesting depth " ++ toString func.max_depth ++ " (target: ≤3)"] else [])
  ++ (if func.params > 4 then
    [toString func.params ++ " parameters (target: ≤4)"] else [])

/-- Stable descending insertion by score: an element inserted later is
placed after earlier elements of equal score, matching Python's stable
`list.sort(key=..., reverse=True)`. -/
def insertByScoreDesc (x : FunctionMetrics) : List FunctionMetrics → List FunctionMetrics
  | [] => [x]
  | y :: ys => if x.score ≥ y.score then x :: y :: ys else y :: insertByScoreDesc x ys

/-- Stable sort of metric records by descending score (extensionally equal
to CPython's stable sort with `reverse=True`). -/
def sortByScoreDesc (l : List FunctionMetrics) : List FunctionMetrics :=
  l.foldr insertByScoreDesc []

/-- `_group_by_severity` (`complexity.py` lines 156-167): threshold filter,
descending stable sort, then the high (≥ 10) / medium (5-9) / low (< 5)
bands. -/
def group_by_severity (functions : List FunctionMetrics) (threshold : Nat) :
    List FunctionMetrics × List FunctionMetrics × List FunctionMetrics :=
  let filtered := functions.filter (fun f => f.score ≥ threshold)
  let sorted := sortByScoreDesc filtered
  (sorted.filter (fun f => f.score ≥ 10),
   sorted.filter (fun f => 5 ≤ f.score && f.score < 10),
   sorted.filter (fun f => f.score < 5))

/-- A function with six regular named parameters and a trivial body. -/
def sixParamFn : PNode := .functionDef "six_param_fn" 0 6 0 [.sPass] 4 (some 5)

/-- The metrics record `ComplexityVisitor` produces for `sixParamFn`. -/
def sixParamMetrics : FunctionMetrics :=
  { name := "six_param_fn", file := "", line := 4, cyclomatic := 1,
    lines := 2, max_depth := 0, params := 6 }

/-- Mutable locals of `_find_cycles` (`architecture.py` lines 105-108).
The Python `visited` and `rec_stack` sets are modelled as lists queried by
membership; insertion order is irrelevant to membership. -/
structure DfsState where
  visited : List String
  recStack : List String
  path : List String
  cycles : List (List String)

/-- `graph.get(node, set())`. -/
def lookupGraph (graph : List (String × List String)) (node : String) : List String :=
  match graph.lookup node with
  | some ns => ns
  | none => []

/-- The inner `dfs` closure of `_find_cycles` (`architecture.py` lines
110-125), with explicit fuel for the recursion (the Python recursion
terminates because it only ever descends into unvisited vertices; any fuel
exceeding the number of distinct vertices is equivalent). -/
def dfsVisit (graph : List (String × List String)) : Nat → String → DfsState → DfsState
  | 0, _, st => st
  | fuel + 1, node, st₀ =>
    let st₁ : DfsState :=
      { st₀ with visited := st₀.visited ++ [node],
                 recStack := st₀.recStack ++ [node],
                 path := st₀.path ++ [node] }
    let st₂ := (lookupGraph graph node).foldl
      (fun st neighbor =>
        if neighbor ∉ st.visited then
          dfsVisit graph fuel neighbor st
        else if neighbor ∈ st.recStack then
          let cycleStart := st.path.indexOf neighbor
          { st with cycles := st.cycles ++ [st.path.drop cycleStart ++ [neighbor]] }
        else st)
      st₁
    { st₂ with path := st₂.path.dropLast, recStack := st₂.recStack.erase node }

/-- `_find_cycles` (`architecture.py` lines 103-131): DFS from every
unvisited vertex, in graph insertion order. -/
def find_cycles (graph : List (String × List String)) : List (List String) :=
  let fuel := graph.length + (graph.map (fun e => e.2.length)).sum + 1
  (graph.foldl
    (fun st e => if e.1 ∈ st.visited then st else dfsVisit graph fuel e.1 st)
    ⟨[], [], [], []⟩).cycles

/-- `frozenset(cycle[:-1])`: the unordered vertex set of an emitted cycle,
excluding the closing repeated vertex. -/
def cycleVertexSet (cycle : List String) : Finset String := cycle.dropLast.toFinset

/-- `" → ".join(cycle)`. -/
def joinArrow (cycle : List String) : String := String.intercalate " → " cycle

/-- One iteration of the display-deduplication loop of `architecture`
(`architecture.py` lines 250-256): state is `(seen_cycles, kept cycles)`;
a cycle is kept (and its vertex set recorded) exactly when its vertex set
is unseen and has more than one distinct vertex. -/
def dedupStep (acc : List (Finset String) × List (List String)) (cycle : List String) :
    List (Finset String) × List (List String) :=
  if cycleVertexSet cycle ∉ acc.1 ∧ 1 < (cycleVertexSet cycle).card then
    (acc.1 ++ [cycleVertexSet cycle], acc.2 ++ [cycle])
  else acc

/-- The deduplication loop over all emitted cycles. -/
def dedupFold (cycles : List (List String)) :
    List (Finset String) × List (List String) :=
  cycles.foldl dedupStep ([], [])

/-- The cycles the report displays, in emission order. -/
def dedupCycles (cycles : List (List String)) : List (List String) :=
  (dedupFold cycles).2

/-- The Circular Dependencies section of `architecture` (`architecture.py`
lines 241-261; the section is emitted only when `cycles` is non-empty, and
each kept cycle becomes the bullet `"- " + " → ".join(cycle)`). -/
def circularSection (cycles : List (List String)) : List String :=
  if cycles.isEmpty then []
  else
    ["## Circular Dependencies", "",
     "The following circular dependencies were detected:", ""]
    ++ (dedupCycles cycles).map (fun c => "- " ++ joinArrow c)
    ++ ["", "**Recommendation**: Break cycles by introducing interfaces or",
        "moving shared code to a separate module.", ""]

/-- `needle` occurs as a prefix of `hay`. -/
def charsStartWith : List Char → List Char → Bool
  | [], _ => true
  | _ :: _, [] => false
  | a :: as, b :: bs => a = b && charsStartWith as bs

/-- `needle` occurs as a contiguous run inside `hay`. -/
def charsOccurIn (needle : List Char) : List Char → Bool
  | [] => charsStartWith needle []
  | c :: rest => charsStartWith needle (c :: rest) || charsOccurIn needle rest

/-- Substring test (`needle in hay` on Python strings). -/
def strContainsSub (hay needle : String) : Bool :=
  charsOccurIn needle.toList hay.toList

/-- The `a→b→c→a` dependency graph, under all six possible dict insertion
orders (each vertex has a single neighbor, so neighbor order is fixed). -/
def abcGraphPerms : List (List (String × List String)) :=
  [[("a", ["b"]), ("b", ["c"]), ("c", ["a"])],
   [("a", ["b"]), ("c", ["a"]), ("b", ["c"])],
   [("b", ["c"]), ("a", ["b"]), ("c", ["a"])],
   [("b", ["c"]), ("c", ["a"]), ("a", ["b"])],
   [("c", ["a"]), ("a", ["b"]), ("b", ["c"])],
   [("c", ["a"]), ("b", ["c"]), ("a", ["b"])]]

/-- `LAYER_ORDER` (`architecture.py` lines 14-33). -/
def LAYER_ORDER : List (String × Nat) :=
  [("domain", 0), ("entities", 0), ("core", 0),
   ("application", 1), ("services", 1), ("usecases", 1), ("use_cases", 1),
   ("interface", 2), ("interfaces", 2), ("adapters", 2), ("controllers", 2),
   ("presenters", 2),
   ("infrastructure", 3), ("infra", 3), ("db", 3), ("database", 3),
   ("external", 3), ("frameworks", 3)]

/-- `part.lower()` (the layer names are ASCII, where Python's `str.lower`
agrees with per-character ASCII lowercasing). -/
def pyLower (s : String) : String := String.mk (s.toList.map Char.toLower)

/-- `_get_layer` (`architecture.py` lines 68-74): the layer of the first
path segment (case-insensitively) present in `LAYER_ORDER`. -/
def get_layer : List String → Option Nat
  | [] => none
  | p :: rest =>
    match LAYER_ORDER.lookup (pyLower p) with
    | some n => some n
    | none => get_layer rest

/-- `ModuleInfo` (`architecture.py` lines 36-43), with the file path kept
as its part list. -/
structure ModuleInfo where
  name : String
  pathParts : List String
  imports : List String
  layer : Option Nat
deriving DecidableEq, Repr

/-- The `ModuleInfo` built by `_analyze_file` (`architecture.py` lines
95-100): the layer always derives from `_get_layer` on the file path. -/
def mkModuleInfo (name : String) (pathParts : List String) (imports : List String) :
    ModuleInfo :=
  { name := name, pathParts := pathParts, imports := imports,
    layer := get_layer pathParts }

/-- The violations contributed by one `modules.items()` entry in
`_find_layer_violations` (`architecture.py` lines 144-164): skip when the
importer has no layer; otherwise keep each imported key that is local,
resolves in `modules`, has a layer, and sits in a strictly higher layer. -/
def entryViolations (modules : List (String × ModuleInfo)) (localModules : List String)
    (entry : String × ModuleInfo) : List (String × String × Nat × Nat) :=
  match entry.2.layer with
  | none => []
  | some fromLayer =>
      entry.2.imports.filterMap (fun imported =>
        if imported ∈ localModules then
          match modules.lookup imported with
          | none => none
          | some importedInfo =>
              match importedInfo.layer with
              | none => none
              | some toLayer =>
                  if fromLayer < toLayer then
                    some (entry.1, imported, fromLayer, toLayer)
                  else none
        else none)

/-- `_find_layer_violations` (`architecture.py` lines 134-166). -/
def find_layer_violations (modules : List (String × ModuleInfo))
    (localModules : List String) : List (String × String × Nat × Nat) :=
  modules.foldl
    (fun violations entry => violations ++ entryViolations modules localModules entry) []

/-- `_layer_name` (`architecture.py` lines 169-177). -/
def layer_name (n : Nat) : String :=
  match n with
  | 0 => "domain/core"
  | 1 => "application/services"
  | 2 => "interface/adapters"
  | 3 => "infrastructure"
  | k => "layer " ++ toString k

/-- One bullet of the Layer Violations section (`architecture.py` lines
272-276). -/
def violationLine (v : String × String × Nat × Nat) : String :=
  "- `" ++ v.1 ++ "` (" ++ layer_name v.2.2.1 ++ ") imports `"
    ++ v.2.1 ++ "` (" ++ layer_name v.2.2.2 ++ ")"

/-- The Layer Violations section of `architecture` (`architecture.py`
lines 264-281), emitted only when violations exist. -/
def layerViolationsSection (violations : List (String × String × Nat × Nat)) :
    List String :=
  if violations.isEmpty then []
  else
    ["## Layer Violations", "",
     "Inner layers should not depend on outer layers:", ""]
    ++ violations.map violationLine
    ++ ["", "**Recommendation**: Use dependency inversion - define interfaces",
        "in inner layers, implement in outer layers.", ""]

/-- A two-module project: a file under a (capitalised) `Domain/` directory
importing a module living under `infrastructure/`, and the reverse
import. -/
def domainInfraModules : List (String × ModuleInfo) :=
  [("order", mkModuleInfo "order" ["myapp", "Domain", "order.py"] ["repo_sql"]),
   ("repo_sql",
     mkModuleInfo "repo_sql" ["myapp", "infrastructure", "repo_sql.py"] ["order"])]

mutual

/-- `ast.dump`: a canonical structural rendering of a node.  Identifier
contents (names, constants) are part of the dump, exactly as in
`ast.dump`, so renamed variables dump differently. -/
def astDump : PNode → String
  | .sIf t b o => "If(" ++ astDump t ++ ",[" ++ astDumpList b ++ "],[" ++ astDumpList o ++ "])"
  | .sWhile t b o =>
      "While(" ++ astDump t ++ ",[" ++ astDumpList b ++ "],[" ++ astDumpList o ++ "])"
  | .sFor tg it b o => "For(" ++ astDump tg ++ "," ++ astDump it ++ ",["
      ++ astDumpList b ++ "],[" ++ astDumpList o ++ "])"
  | .sAsyncFor tg it b o => "AsyncFor(" ++ astDump tg ++ "," ++ astDump it ++ ",["
      ++ astDumpList b ++ "],[" ++ astDumpList o ++ "])"
  | .sTry b h o f => "Try([" ++ astDumpList b ++ "],[" ++ astDumpList h ++ "],["
      ++ astDumpList o ++ "],[" ++ astDumpList f ++ "])"
  | .excHandler b => "ExceptHandler([" ++ astDumpList b ++ "])"
  | .sWith c b => "With(" ++ astDump c ++ ",[" ++ astDumpList b ++ "])"
  | .sAsyncWith c b => "AsyncWith(" ++ astDump c ++ ",[" ++ astDumpList b ++ "])"
  | .sAssert t => "Assert(" ++ astDump t ++ ")"
  | .sExprStmt v => "Expr(" ++ astDump v ++ ")"
  | .sReturnNone => "Return()"
  | .sReturn v => "Return(" ++ astDump v ++ ")"
  | .sAssign t v => "Assign(" ++ astDump t ++ "," ++ astDump v ++ ")"
  | .sPass => "Pass()"
  | .functionDef n p a k b _ _ => "FunctionDef(" ++ n ++ "," ++ toString p ++ ","
      ++ toString a ++ "," ++ toString k ++ ",[" ++ astDumpList b ++ "])"
  | .asyncFunctionDef n p a k b _ _ => "AsyncFunctionDef(" ++ n ++ ","
      ++ toString p ++ "," ++ toString a ++ "," ++ toString k ++ ",["
      ++ astDumpList b ++ "])"
  | .boolOp op vs =>
      "BoolOp(" ++ (match op with | .and => "And()" | .or => "Or()") ++ ",["
        ++ astDumpList vs ++ "])"
  | .opNode k => match k with | .and => "And()" | .or => "Or()"
  | .comprehension t it ifs => "comprehension(" ++ astDump t ++ "," ++ astDump it
      ++ ",[" ++ astDumpList ifs ++ "])"
  | .listComp e gs => "ListComp(" ++ astDump e ++ ",[" ++ astDumpList gs ++ "])"
  | .constNode v => "Constant("
      ++ (match v with
          | .str s => "str:" ++ s
          | .int n => "int:" ++ toString n
          | .bool b => "bool:" ++ toString b
          | .none => "None"
          | .ellipsis => "Ellipsis") ++ ")"
  | .nameNode s => "Name(" ++ s ++ ")"
  | .call f as => "Call(" ++ astDump f ++ ",[" ++ astDumpList as ++ "])"
  | .compare l rs => "Compare(" ++ astDump l ++ ",[" ++ astDumpList rs ++ "])"
  | .binOp l r => "BinOp(" ++ astDump l ++ "," ++ astDump r ++ ")"

/-- `ast.dump` of a statement list (the `body` of the synthetic
`ast.Module` built in `_hash_function_body`). -/
def astDumpList : List PNode → String
  | [] => ""
  | [n] => astDump n
  | n :: rest => astDump n ++ "," ++ astDumpList rest

end

/-- `hashlib.md5(s.encode()).hexdigest()[:8]`, modelled as a marker around
the dumped string.  The model treats the digest as collision-free on
structural dumps; the only other property `_find_duplicates` relies on is
that a real digest is never the empty string, which the marker
guarantees. -/
def md5hex8 (s : String) : String := "h:" ++ s

/-- `_hash_function_body` (`refactor.py` lines 27-37): drop the first
statement when it is a bare constant expression (`isinstance(body[0],
ast.Expr) and isinstance(body[0].value, ast.Constant)`), return `""` for
an empty remainder, else hash the structural dump of the remainder. -/
def hash_function_body (body : List PNode) : String :=
  let trimmed := match body with
    | .sExprStmt (.constNode _) :: rest => rest
    | _ => body
  if trimmed.isEmpty then ""
  else md5hex8 (astDumpList trimmed)

/-- The claim's normalization, modelled from its words: drop the first
statement only when it is a bare *string-literal* expression (a
docstring). -/
def specDropDocstring (body : List PNode) : List PNode :=
  match body with
  | .sExprStmt (.constNode (.str _)) :: rest => rest
  | _ => body

/-- The amended normalization: drop the first statement when it is a bare
constant-literal expression of any kind. -/
def specDropLeadingConst (body : List PNode) : List PNode :=
  match body with
  | .sExprStmt (.constNode _) :: rest => rest
  | _ => body

/-- The per-function record of `_extract_functions` (`refactor.py`
lines 50-57). -/
structure FuncInfo where
  name : String
  file : String
  line : Nat
  body_hash : String
  num_lines : Nat
deriving DecidableEq, Repr

/-- `_extract_functions` (`refactor.py` lines 40-58): walk the parsed
tree and record every node satisfying `isinstance(node, ast.FunctionDef)`
— synchronous definitions only, since `ast.AsyncFunctionDef` is not a
subclass of `ast.FunctionDef`. -/
def extract_functions (filePath : String) (tree : List PNode) : List FuncInfo :=
  (walkList tree).filterMap (fun node =>
    match node with
    | .functionDef name _ _ _ body lineno endLineno =>
        some { name := name, file := filePath, line := lineno,
               body_hash := hash_function_body body,
               num_lines := (endLineno.getD lineno) - lineno + 1 }
    | _ => none)

/-- Whether a node is a synchronous `ast.FunctionDef`. -/
def isSyncFunctionDef : PNode → Bool
  | .functionDef _ _ _ _ _ _ _ => true
  | _ => false

/-- `defaultdict(list)` insertion: append `f` to the group keyed `k`,
creating the group at the end on first use (dict insertion order). -/
def addToGroups (groups : List (String × List FuncInfo)) (k : String) (f : FuncInfo) :
    List (String × List FuncInfo) :=
  match groups with
  | [] => [(k, [f])]
  | (k0, fs) :: rest =>
      if k0 = k then (k0, fs ++ [f]) :: rest
      else (k0, fs) :: addToGroups rest k f

/-- The set of distinct owning files of a group's members
(`set(f["file"] for f in funcs)`). -/
def groupFiles (funcs : List FuncInfo) : Finset String :=
  (funcs.map FuncInfo.file).toFinset

/-- `_find_duplicates` (`refactor.py` lines 61-74): group the functions
with a truthy `body_hash` by hash, then keep only groups spanning more
than one distinct file. -/
def find_duplicates (functions : List FuncInfo) : List (String × List FuncInfo) :=
  let by_hash := functions.foldl
    (fun groups f =>
      if f.body_hash ≠ "" then addToGroups groups f.body_hash f else groups) []
  by_hash.filter (fun g => 1 < (groupFiles g.2).card)

/-- `_find_same_name_functions` (`refactor.py` lines 77-89): group all
functions by name, keep groups spanning more than one distinct file. -/
def find_same_name_functions (functions : List FuncInfo) :
    List (String × List FuncInfo) :=
  let by_name := functions.foldl (fun groups f => addToGroups groups f.name f) []
  by_name.filter (fun g => 1 < (groupFiles g.2).card)

/-- `NamingIssue` (`analyze.py` lines 15-23). -/
structure NamingIssue where
  name : String
  file : String
  line : Nat
  issue_type : String
  suggestion : String
deriving DecidableEq, Repr

/-- `name.startswith(pre)`. -/
def pyStartsWith (s pre : String) : Bool := charsStartWith pre.toList s.toList

/-- `name.endswith(suf)`. -/
def pyEndsWith (s suf : String) : Bool :=
  charsStartWith suf.toList.reverse s.toList.reverse

/-- Backtracking tail of `re.match(r"^[a-z]+[A-Z]", name)` after at least
one lowercase letter has been consumed: keep consuming lowercase letters;
succeed on an uppercase letter; fail on anything else or at the end. -/
def camelTail : List Char → Bool
  | [] => false
  | c :: rest => if c.isUpper then true else if c.isLower then camelTail rest else false

/-- `re.match(r"^[a-z]+[A-Z]", name)` as a Boolean: one or more lowercase
ASCII letters at the start, immediately followed by an uppercase ASCII
letter. -/
def regex_camel_match (name : String) : Bool :=
  match name.toList with
  | [] => false
  | c :: rest => c.isLower && camelTail rest

/-- `re.sub(r"([A-Z])", r"_\1", name)`: insert an underscore before each
uppercase letter. -/
def underscoreBeforeUppers (s : String) : String :=
  String.mk (s.toList.flatMap (fun c => if c.isUpper then ['_', c] else [c]))

/-- `.lower()` (the analyzed names are identifiers; ASCII lowering). -/
def lowerAll (s : String) : String := String.mk (s.toList.map Char.toLower)

/-- `.lstrip("_")`. -/
def lstripUnderscores (s : String) : String :=
  String.mk (s.toList.dropWhile (fun ch => ch == '_'))

/-- `_to_snake_case` (`analyze.py` lines 72-75). -/
def to_snake_case (name : String) : String :=
  lstripUnderscores (lowerAll (underscoreBeforeUppers name))

/-- `NamingVisitor._check_function_name` (`analyze.py` lines 40-69):
skip dunder names; flag single-letter names other than `_`; flag
camelCase names (regex match and no underscore anywhere). -/
def check_function_name (name : String) (lineno : Nat) : List NamingIssue :=
  if pyStartsWith name "__" && pyEndsWith name "__" then []
  else
    (if name.length = 1 ∧ name ≠ "_" then
      [{ name := name, file := "", line := lineno, issue_type := "too_short",
         suggestion := "Use a descriptive name that explains the function's purpose" }]
     else [])
    ++ (if regex_camel_match name && !(name.toList.contains '_') then
      [{ name := name, file := "", line := lineno, issue_type := "camel_case",
         suggestion := "Use snake_case: " ++ to_snake_case name }]
     else [])

/-- The `NamingVisitor` pass over a parsed module: `_check_function_name`
on every (sync or async) function definition, nested ones included. -/
def naming_issues (tree : List PNode) : List NamingIssue :=
  (walkList tree).flatMap (fun n =>
    match n with
    | .functionDef name _ _ _ _ lineno _ => check_function_name name lineno
    | .asyncFunctionDef name _ _ _ _ lineno _ => check_function_name name lineno
    | _ => [])

/-- A docstring-free function body. -/
def dupBody : List PNode := [.sReturn (.call (.nameNode "g") [.nameNode "x"])]

/-- A module holding one synchronous function with body `dupBody`. -/
def dupTree : List PNode := [.functionDef "util" 0 1 0 dupBody 1 (some 2)]

/-- The same function body appearing in two distinct files. -/
def crossFileFuncs : List FuncInfo :=
  extract_functions "a.py" dupTree ++ extract_functions "b.py" dupTree

/-- The same function body repeated twice inside a single file. -/
def singleFileRepeatTree : List PNode :=
  dupTree ++ [.functionDef "util_b" 0 1 0 dupBody 4 (some 5)]

/-- A docstring-only function record: its remaining body is empty, so its
hash is the empty string. -/
def emptyHashFn : FuncInfo :=
  { name := "stub", file := "a.py", line := 9,
    body_hash := hash_function_body [.sExprStmt (.constNode (.str "doc"))],
    num_lines := 1 }

/-- The duplicate group formed by the two cross-file copies of `dupBody`. -/
def c5WitnessGroup : String × List FuncInfo :=
  (md5hex8 (astDumpList dupBody), crossFileFuncs)

/-- A module holding one async function with body `dupBody`. -/
def asyncDupTree : List PNode := [.asyncFunctionDef "fetch" 0 1 0 dupBody 1 (some 2)]

/-- A module holding one async function with a camelCase name. -/
def asyncCamelTree : List PNode :=
  [.asyncFunctionDef "fetchData" 0 1 0 [.sPass] 1 (some 2)]

/-- Outcome of reading and parsing one file.  `parse_file` catches exactly
`SyntaxError` and `UnicodeDecodeError` (`_parsers.py` lines 42-46); both
become `none`, so a failing file can never raise past the analyzer. -/
inductive ParseOutcome where
  | ok (tree : List PNode)
  | syntaxError
  | decodeError

/-- `parse_file` (`_parsers.py` lines 33-46). -/
def parse_file : ParseOutcome → Option (List PNode)
  | .ok tree => some tree
  | .syntaxError => none
  | .decodeError => none

/-- `_analyze_file` of the complexity analyzer (`complexity.py` lines
112-124): empty on parse failure, else the `ComplexityVisitor` records. -/
def analyze_file (po : ParseOutcome) : List FunctionMetrics :=
  match parse_file po with
  | none => []
  | some tree => collect_functions tree

/-- `_collect_metrics` (`complexity.py` lines 141-153): all records of all
files, and the file count `len(py_files)`. -/
def collect_metrics (files : List ParseOutcome) : List FunctionMetrics × Nat :=
  (files.flatMap analyze_file, files.length)

/-- `format_header` (`_formatters.py` lines 9-38) as the list of report
lines, with both counts supplied (as the complexity analyzer does). -/
def format_header (title path : String) (file_count func_count : Nat) : List String :=
  ["# " ++ title ++ ": " ++ path, "",
   "Analyzed " ++ toString file_count
     ++ (if file_count = 1 then " file" else " files")
     ++ ", found " ++ toString func_count
     ++ (if func_count = 1 then " function" else " functions") ++ ".", ""]

/-- `str(f)`: the joined path string. -/
def pathStr (parts : List String) : String := String.intercalate "/" parts

/-- Stable insertion for path sorting by joined string (`sorted(...)` on
`Path` objects orders by their part tuples; on the slash-joined strings
of these models the orders agree). -/
def insertPath (x : List String) : List (List String) → List (List String)
  | [] => [x]
  | y :: ys => if pathStr x ≤ pathStr y then x :: y :: ys else y :: insertPath x ys

/-- `sorted(py_files)`. -/
def sortPaths (l : List (List String)) : List (List String) :=
  l.foldr insertPath []

/-- The filter shared by `collect_py_files` (`_parsers.py` lines 25-30)
and `architecture` (`architecture.py` lines 200-205): drop any path whose
string contains `__pycache__` or that has a component beginning with a
dot.  `rglob` results include the root's own components, modelled as
`rootParts ++ rel`. -/
def keepPyFile (f : List String) : Bool :=
  !(strContainsSub (pathStr f) "__pycache__")
    && !(f.any (fun p => pyStartsWith p "."))

/-- `collect_py_files` on a directory root (`_parsers.py` lines 25-30):
filter, then sort. -/
def collect_py_files_dir (rootParts : List String)
    (relFiles : List (List String)) : List (List String) :=
  sortPaths ((relFiles.map (fun rel => rootParts ++ rel)).filter keepPyFile)

/-- The inline collection of `architecture` on a directory root
(`architecture.py` lines 200-205): same filter, no sort. -/
def arch_collect (rootParts : List String)
    (relFiles : List (List String)) : List (List String) :=
  (relFiles.map (fun rel => rootParts ++ rel)).filter keepPyFile

/-- The empty-set early return of the analyzers (`architecture.py` lines
208-209, and equivalently `complexity.py` lines 243-244): `some` message
exactly when no files survived collection. -/
def no_files_guard (path : String) (py_files : List (List String)) : Option String :=
  if py_files.isEmpty then some ("No Python files found in " ++ path) else none

/-- The `(output, has_issues, recommendations)` triple each
`_run_*_analysis` helper of `analyze.py` returns (lines 129-198); the
output is kept as its list of lines. -/
structure SubReport where
  output : List String
  has_issues : Bool
  recommendations : List String
deriving DecidableEq, Repr

/-- `focus in (target, "all")`, the guard shape of `analyze.py` lines
227, 235 and 243 (and of `refactor.py` lines 413-419). -/
def focusSelects (focus target : String) : Bool :=
  focus == target || focus == "all"

/-- `format_section` (`_formatters.py` lines 72-102) as report lines. -/
def sectionLines (heading : String) (items : List String) : List String :=
  if items.isEmpty then []
  else ["## " ++ heading, ""] ++ items ++ [""]

/-- `enumerate(all_recommendations, 1)` rendered as `"{i}. {rec}"`
(`analyze.py` lines 259-260). -/
def numberRecs : Nat → List String → List String
  | _, [] => []
  | i, r :: rest => (toString i ++ ". " ++ r) :: numberRecs (i + 1) rest

/-- `analyze` (`analyze.py` lines 201-262) past the collection step, with
the three sub-analysis results supplied: conditionally splice each
selected-and-issue-bearing section, accumulate recommendations, and end
with the Summary section.  The function mentions no other focus value —
in particular nothing matches `"duplication"`. -/
def analyze_combined (focus : String) (comp arch naming : SubReport)
    (header : List String) : List String :=
  let runComp := focusSelects focus "complexity" && comp.has_issues
  let runArch := focusSelects focus "architecture" && arch.has_issues
  let runNaming := focusSelects focus "naming" && naming.has_issues
  let lines := header
    ++ (if runComp then sectionLines "Complexity Analysis" comp.output else [])
    ++ (if runArch then sectionLines "Architecture Analysis" arch.output else [])
    ++ (if runNaming then sectionLines "Naming Convention Issues" naming.output else [])
  let issues_found := runComp || runArch || runNaming
  let recommendations :=
    (if runComp then comp.recommendations else [])
    ++ (if runArch then arch.recommendations else [])
    ++ (if runNaming then naming.recommendations else [])
  lines ++ ["## Summary", ""]
    ++ (if issues_found then
          ["### Recommendations", ""] ++ numberRecs 1 recommendations
        else
          ["No major code quality issues found. The codebase looks clean!"])

/-- `RefactorIssue` (`refactor.py` lines 13-24). -/
structure RefactorIssue where
  category : String
  priority : Nat
  title : String
  description : String
  file : String
  line : Nat
  recommendation : String
  details : List String
deriving DecidableEq, Repr

/-- `Path(s).name`: the final path component. -/
def pathBaseName (s : String) : String :=
  String.mk ((s.toList.reverse.takeWhile (fun c => c ≠ '/')).reverse)

/-- `_analyze_duplication` (`refactor.py` lines 105-150): a priority-2
issue per duplicate-body group, then a priority-3 issue per same-name
group not already covered by a duplicate group. -/
def analyze_duplication (functions : List FuncInfo) : List RefactorIssue :=
  let duplicates := find_duplicates functions
  let dupIssues := duplicates.map (fun g =>
    { category := "duplication", priority := 2,
      title := "Duplicate function bodies (hash: " ++ g.1 ++ ")",
      description := toString g.2.length ++ " functions have identical implementations",
      file := (g.2.head?.map FuncInfo.file).getD "",
      line := (g.2.head?.map FuncInfo.line).getD 0,
      recommendation := "Extract to a shared module and import",
      details := g.2.map (fun f =>
        "`" ++ f.name ++ "` in `" ++ pathBaseName f.file
          ++ "` (line " ++ toString f.line ++ ")") } : String × List FuncInfo → RefactorIssue)
  let dup_names := duplicates.flatMap (fun g => g.2.map FuncInfo.name)
  let same_name := (find_same_name_functions functions).filter
    (fun g => !(dup_names.contains g.1))
  let snIssues := same_name.map (fun g =>
    { category := "duplication", priority := 3,
      title := "Same-name function: `" ++ g.1 ++ "`",
      description := toString g.2.length ++ " functions share this name with different impls",
      file := (g.2.head?.map FuncInfo.file).getD "",
      line := (g.2.head?.map FuncInfo.line).getD 0,
      recommendation := "Consolidate if same purpose, or rename for clarity",
      details := g.2.map (fun f =>
        "`" ++ pathBaseName f.file ++ "` line " ++ toString f.line
          ++ " (" ++ toString f.num_lines ++ " lines)") } : String × List FuncInfo → RefactorIssue)
  dupIssues ++ snIssues

/-- The focus dispatch of `refactor` (`refactor.py` lines 412-420): the
issue list accumulated from the analyses the focus selects. -/
def refactor_selected_issues (focus : String)
    (dup comp arch : List RefactorIssue) : List RefactorIssue :=
  (if focusSelects focus "duplication" then dup else [])
  ++ (if focusSelects focus "complexity" then comp else [])
  ++ (if focusSelects focus "architecture" then arch else [])

/-- A sub-analysis result carrying findings and a recommendation. -/
def issueSub : SubReport := { output := ["- finding"], has_issues := true,
                              recommendations := ["do something"] }

/-! ## Claim theorems and supporting lemmas -/

/-- The accumulator-style loop of `_calculate_cyclomatic` equals the
per-category counts over any node enumeration. -/
theorem foldl_cycloStep (l : List PNode) : ∀ acc : Nat,
    l.foldl cycloStep acc =
      acc + l.countP isBranchStmt + l.countP isHandlerClause
        + l.countP isBoolOperatorNode + l.countP isComprehensionClause
        + (l.map comprehensionFilterCount).sum + l.countP isAssertStmt
        + (l.map boolOpExcessOperands).sum := by
  induction l with
  | nil => simp
  | cons n rest ih =>
    intro acc
    rw [List.foldl_cons, ih]
    cases n <;>
      simp [cycloStep, isBranchStmt, isHandlerClause, isBoolOperatorNode,
        isComprehensionClause, isAssertStmt, comprehensionFilterCount,
        boolOpExcessOperands, List.countP_cons] <;>
      first
        | omega
        | (split <;> omega)

/-- C1.  For every function (or async-function) definition node, the
complexity analyzer's `_calculate_cyclomatic` computes exactly: 1, plus one
per `if`/`while`/`for` (sync or async) statement, per exception-handler
clause, per boolean `and`/`or` operator node, per comprehension clause,
plus one more per filter condition of each comprehension, plus one per
assertion statement, plus `operand_count − 2` per boolean expression with
more than two operands.  Moreover a sample function combining all
categories scores 8. -/
theorem C1_cyclomatic_rule :
    (∀ node : PNode, calculate_cyclomatic node =
      1 + (walk node).countP isBranchStmt + (walk node).countP isHandlerClause
        + (walk node).countP isBoolOperatorNode
        + (walk node).countP isComprehensionClause
        + ((walk node).map comprehensionFilterCount).sum
        + (walk node).countP isAssertStmt
        + ((walk node).map boolOpExcessOperands).sum) ∧
    calculate_cyclomatic cycloDemoFn = 8 := by
  constructor
  · intro node
    exact foldl_cycloStep (walk node) 1
  · rfl

/-- C2.  The severity score of every function record equals
`cyclomatic + max(0, lines−20) ÷ 10 + max(0, depth−3) × 2 +
max(0, params−4) × 2` (integer division); and the six-named-parameter,
branch-free function is extracted with `params = 6` and `cyclomatic = 1`,
scores `5`, is flagged exactly `"6 parameters (target: ≤4)"`, and is
grouped under the Medium severity band (score 5-9). -/
theorem C2_severity_score :
    (∀ m : FunctionMetrics,
      (m.score : Int) = (m.cyclomatic : Int)
        + max 0 ((m.lines : Int) - 20) / 10
        + max 0 ((m.max_depth : Int) - 3) * 2
        + max 0 ((m.params : Int) - 4) * 2) ∧
    collect_functions [sixParamFn] = [sixParamMetrics] ∧
    sixParamMetrics.score = 1 + (6 - 4) * 2 ∧
    format_issues sixParamMetrics = ["6 parameters (target: ≤4)"] ∧
    group_by_severity (collect_functions [sixParamFn]) 1
      = ([], [sixParamMetrics], []) := by
  refine ⟨?_, by decide, by decide, by decide, by decide⟩
  intro m
  simp only [FunctionMetrics.score]
  split_ifs <;> omega

/-- The seen-set component mirrors the kept cycles, only grows, stays
duplicate-free, and only ever holds vertex sets with more than one
element. -/
theorem dedupFold_invariant (cycles : List (List String)) :
    ∀ acc : List (Finset String) × List (List String),
      acc.2.map cycleVertexSet = acc.1 → acc.1.Nodup →
      (∀ S ∈ acc.1, 1 < S.card) →
      ((cycles.foldl dedupStep acc).2.map cycleVertexSet
          = (cycles.foldl dedupStep acc).1
        ∧ (cycles.foldl dedupStep acc).1.Nodup
        ∧ (∀ S ∈ (cycles.foldl dedupStep acc).1, 1 < S.card)) := by
  induction cycles with
  | nil => intro acc h1 h2 h3; exact ⟨h1, h2, h3⟩
  | cons c rest ih =>
    intro acc h1 h2 h3
    rw [List.foldl_cons]
    by_cases hc : cycleVertexSet c ∉ acc.1 ∧ 1 < (cycleVertexSet c).card
    · refine ih _ ?_ ?_ ?_ <;> simp only [dedupStep, if_pos hc]
      · simp [h1]
      · rw [List.nodup_append]
        refine ⟨h2, List.nodup_singleton _, fun S hS hT => ?_⟩
        simp only [List.mem_singleton] at hT
        exact hc.1 (hT ▸ hS)
      · intro S hS
        rcases List.mem_append.mp hS with h | h
        · exact h3 S h
        · simp only [List.mem_singleton] at h; subst h; exact hc.2
    · rw [dedupStep, if_neg hc]
      exact ih acc h1 h2 h3

/-- The seen-set component of the deduplication loop only grows. -/
theorem dedupFold_seen_mono (cycles : List (List String)) :
    ∀ acc : List (Finset String) × List (List String),
      ∀ S ∈ acc.1, S ∈ (cycles.foldl dedupStep acc).1 := by
  induction cycles with
  | nil => intro acc S hS; exact hS
  | cons c rest ih =>
    intro acc S hS
    rw [List.foldl_cons]
    refine ih _ S ?_
    unfold dedupStep
    split
    · exact List.mem_append.mpr (Or.inl hS)
    · exact hS

/-- Every emitted cycle with more than one distinct vertex is represented
in the deduplicated display. -/
theorem dedupFold_complete (cycles : List (List String)) :
    ∀ acc : List (Finset String) × List (List String),
      ∀ c ∈ cycles, 1 < (cycleVertexSet c).card →
        cycleVertexSet c ∈ (cycles.foldl dedupStep acc).1 := by
  induction cycles with
  | nil => intro acc c hc; exact absurd hc (List.not_mem_nil c)
  | cons d rest ih =>
    intro acc c hc hcard
    rw [List.foldl_cons]
    rcases List.mem_cons.mp hc with h | h
    · subst h
      refine dedupFold_seen_mono rest _ _ ?_
      unfold dedupStep
      split
      · exact List.mem_append.mpr (Or.inr (by simp))
      · rename_i hneg
        rcases Decidable.not_and_iff_or_not.mp hneg with h | h
        · exact Decidable.not_not.mp h
        · exact absurd hcard h
    · exact ih _ c h hcard

/-- C3.  The deduplicated circular-dependency display lists each cycle
exactly once per unordered vertex set (the displayed vertex sets are
duplicate-free, every displayed cycle has more than one distinct vertex,
and every detected cycle with more than one distinct vertex is
represented); and on the concrete graph `a→b→c→a`, for every one of the
six possible DFS starting orders, the rendered section contains the word
"circular" and displays exactly one cycle, with vertex set `{a, b, c}`. -/
theorem C3_cycle_dedup :
    (∀ cycles : List (List String),
      ((dedupCycles cycles).map cycleVertexSet).Nodup
      ∧ (∀ c ∈ dedupCycles cycles, 1 < (cycleVertexSet c).card)
      ∧ (∀ c ∈ cycles, 1 < (cycleVertexSet c).card →
          cycleVertexSet c ∈ (dedupCycles cycles).map cycleVertexSet)) ∧
    (∀ g ∈ abcGraphPerms,
      (circularSection (find_cycles g)).any
          (fun l => strContainsSub l "circular") = true
      ∧ (circularSection (find_cycles g)).countP
          (fun l => charsStartWith "- ".toList l.toList) = 1
      ∧ (dedupCycles (find_cycles g)).map cycleVertexSet
          = [({"a", "b", "c"} : Finset String)]) := by
  constructor
  · intro cycles
    have h := dedupFold_invariant cycles ([], []) (by simp) (by simp) (by simp)
    refine ⟨h.1 ▸ h.2.1, ?_, ?_⟩
    · intro c hc
      have : cycleVertexSet c ∈ (dedupCycles cycles).map cycleVertexSet :=
        List.mem_map_of_mem cycleVertexSet hc
      rw [show (dedupCycles cycles).map cycleVertexSet = (dedupFold cycles).1 from h.1] at this
      exact h.2.2 _ this
    · intro c hc hcard
      rw [show (dedupCycles cycles).map cycleVertexSet = (dedupFold cycles).1 from h.1]
      exact dedupFold_complete cycles ([], []) c hc hcard
  · decide

/-- Appending per-entry contributions in a fold is flat-mapping. -/
theorem foldl_append_eq_flat {α β : Type} (f : α → List β) (l : List α) :
    ∀ init : List β,
      l.foldl (fun acc x => acc ++ f x) init = init ++ l.flatMap f := by
  induction l with
  | nil => intro init; simp
  | cons x rest ih => intro init; simp [ih, List.append_assoc]

/-- With duplicate-free keys, `list.lookup` is exactly association-list
membership (Python dict lookup). -/
theorem lookup_eq_some_iff_mem (l : List (String × ModuleInfo))
    (h : (l.map Prod.fst).Nodup) (a : String) (v : ModuleInfo) :
    l.lookup a = some v ↔ (a, v) ∈ l := by
  induction l with
  | nil => simp [List.lookup]
  | cons e rest ih =>
    obtain ⟨k, w⟩ := e
    simp only [List.map_cons, List.nodup_cons, List.mem_map] at h
    by_cases hk : a = k
    · subst hk
      simp only [List.lookup, beq_self_eq_true, List.mem_cons]
      constructor
      · rintro h'
        exact Or.inl (by simpa using h'.symm)
      · rintro (h' | h')
        · simp only [Prod.mk.injEq] at h'
          simp [h'.2]
        · exact absurd ⟨(a, v), h', rfl⟩ h.1
    · have hbeq : (a == k) = false := beq_eq_false_iff_ne.mpr hk
      simp only [List.lookup, hbeq, List.mem_cons]
      rw [ih h.2]
      constructor
      · exact fun h' => Or.inr h'
      · rintro (h' | h')
        · exact absurd (congrArg Prod.fst h') hk
        · exact h'

/-- Characterization of the per-import check inside
`_find_layer_violations`. -/
theorem innerCheck_eq_some (modules : List (String × ModuleInfo))
    (localModules : List String) (entryName : String) (fromLayer : Nat)
    (imported : String) (v : String × String × Nat × Nat) :
    (if imported ∈ localModules then
        match modules.lookup imported with
        | none => none
        | some importedInfo =>
            match importedInfo.layer with
            | none => none
            | some toLayer =>
                if fromLayer < toLayer then
                  some (entryName, imported, fromLayer, toLayer)
                else none
      else none) = some v
    ↔ imported ∈ localModules
      ∧ ∃ info, modules.lookup imported = some info
      ∧ ∃ toLayer, info.layer = some toLayer ∧ fromLayer < toLayer
      ∧ v = (entryName, imported, fromLayer, toLayer) := by
  by_cases hloc : imported ∈ localModules
  · cases hlk : modules.lookup imported with
    | none => simp [hloc, hlk]
    | some info =>
      cases hly : info.layer with
      | none => simp [hloc, hlk, hly]
      | some toLayer =>
        by_cases hlt : fromLayer < toLayer
        · simp [hloc, hlk, hly, hlt, eq_comm]
        · simp [hloc, hlk, hly, hlt]
  · simp [hloc]

/-- C4.  With the module dict of an analysis run (duplicate-free keys,
`local_modules` = its key set), an edge `importer→imported` appears among
the reported layer violations exactly when both modules resolve, both have
an assigned layer, the import edge exists, and
`importer.layer < imported.layer`; and concretely, the `Domain/`-file
importing the `infrastructure/`-file is reported (layers 0 and 3) while
the reverse import is not. -/
theorem C4_layer_violations :
    (∀ (modules : List (String × ModuleInfo)),
      (modules.map Prod.fst).Nodup →
      ∀ (a b : String) (la lb : Nat),
        ((a, b, la, lb) ∈ find_layer_violations modules (modules.map Prod.fst)
          ↔ (∃ ia, modules.lookup a = some ia ∧ b ∈ ia.imports ∧ ia.layer = some la)
            ∧ (∃ ib, modules.lookup b = some ib ∧ ib.layer = some lb)
            ∧ la < lb)) ∧
    find_layer_violations domainInfraModules (domainInfraModules.map Prod.fst)
      = [("order", "repo_sql", 0, 3)] ∧
    layerViolationsSection
        (find_layer_violations domainInfraModules (domainInfraModules.map Prod.fst))
      = ["## Layer Violations", "",
         "Inner layers should not depend on outer layers:", "",
         "- `order` (domain/core) imports `repo_sql` (infrastructure)",
         "", "**Recommendation**: Use dependency inversion - define interfaces",
         "in inner layers, implement in outer layers.", ""] := by
  refine ⟨?_, by decide, by decide⟩
  intro modules hnodup a b la lb
  rw [find_layer_violations, foldl_append_eq_flat, List.nil_append,
    List.mem_flatMap]
  constructor
  · rintro ⟨entry, hentry, hv⟩
    rw [entryViolations] at hv
    rcases hfl : entry.2.layer with _ | fromLayer
    · rw [hfl] at hv; exact absurd hv (List.not_mem_nil _)
    · rw [hfl] at hv
      rcases List.mem_filterMap.mp hv with ⟨imported, himp, hsome⟩
      rcases (innerCheck_eq_some modules _ entry.1 fromLayer imported _).mp hsome
        with ⟨hloc, info, hinfo, toLayer, hly, hlt, heq⟩
      obtain ⟨rfl, rfl, rfl, rfl⟩ :
          a = entry.1 ∧ b = imported ∧ la = fromLayer ∧ lb = toLayer := by
        have h1 := congrArg Prod.fst heq
        have h2 := congrArg (fun p => p.2.1) heq
        have h3 := congrArg (fun p => p.2.2.1) heq
        have h4 := congrArg (fun p => p.2.2.2) heq
        exact ⟨h1, h2, h3, h4⟩
      refine ⟨⟨entry.2, ?_, himp, hfl⟩, ⟨info, hinfo, hly⟩, hlt⟩
      exact (lookup_eq_some_iff_mem modules hnodup entry.1 entry.2).mpr hentry
  · rintro ⟨⟨ia, hia, himp, hla⟩, ⟨ib, hib, hlb⟩, hlt⟩
    refine ⟨(a, ia), (lookup_eq_some_iff_mem modules hnodup a ia).mp hia, ?_⟩
    rw [entryViolations]
    simp only [hla]
    refine List.mem_filterMap.mpr ⟨b, himp, ?_⟩
    refine (innerCheck_eq_some modules _ a la b _).mpr ⟨?_, ib, hib, lb, hlb, hlt, rfl⟩
    have : (b, ib) ∈ modules := (lookup_eq_some_iff_mem modules hnodup b ib).mp hib
    exact List.mem_map.mpr ⟨(b, ib), this, rfl⟩

/-- C4 witness: the general characterization applied to the concrete
two-module project reports the domain-to-infrastructure edge. -/
theorem C4_layer_violations_witness :
    ("order", "repo_sql", 0, 3)
      ∈ find_layer_violations domainInfraModules (domainInfraModules.map Prod.fst) :=
  (C4_layer_violations.1 domainInfraModules (by decide) "order" "repo_sql" 0 3).mpr
    (by decide)

/-- `addToGroups` preserves any member/key invariant. -/
theorem addToGroups_inv (P : FuncInfo → String → Prop) (k : String) (f : FuncInfo)
    (hf : P f k) :
    ∀ groups, (∀ g ∈ groups, ∀ x ∈ g.2, P x g.1) →
      ∀ g ∈ addToGroups groups k f, ∀ x ∈ g.2, P x g.1 := by
  intro groups
  induction groups with
  | nil =>
    intro _ g hg x hx
    simp only [addToGroups, List.mem_singleton] at hg
    subst hg
    simp only [List.mem_singleton] at hx
    subst hx
    exact hf
  | cons g0 rest ih =>
    intro hinv g hg x hx
    obtain ⟨k0, fs⟩ := g0
    rw [addToGroups] at hg
    by_cases hk : k0 = k
    · rw [if_pos hk] at hg
      rcases List.mem_cons.mp hg with rfl | hg'
      · rcases List.mem_append.mp hx with hx' | hx'
        · exact hinv (k0, fs) (List.mem_cons_self _ _) x hx'
        · simp only [List.mem_singleton] at hx'
          subst hx'
          subst hk
          exact hf
      · exact hinv g (List.mem_cons_of_mem _ hg') x hx
    · rw [if_neg hk] at hg
      rcases List.mem_cons.mp hg with rfl | hg'
      · exact hinv (k0, fs) (List.mem_cons_self _ _) x hx
      · exact ih (fun g hg x hx => hinv g (List.mem_cons_of_mem _ hg) x hx) g hg' x hx

/-- Invariant of the `by_hash` dictionary: every member of every group
carries the group's key as its hash, and that hash is truthy. -/
theorem by_hash_inv (functions : List FuncInfo) :
    ∀ acc, (∀ g ∈ acc, ∀ x ∈ g.2, x.body_hash = g.1 ∧ x.body_hash ≠ "") →
      ∀ g ∈ functions.foldl
        (fun groups f =>
          if f.body_hash ≠ "" then addToGroups groups f.body_hash f else groups) acc,
        ∀ x ∈ g.2, x.body_hash = g.1 ∧ x.body_hash ≠ "" := by
  induction functions with
  | nil => intro acc h; exact h
  | cons f rest ih =>
    intro acc h
    rw [List.foldl_cons]
    by_cases hf : f.body_hash ≠ ""
    · rw [if_pos hf]
      exact ih _ (addToGroups_inv (fun x k => x.body_hash = k ∧ x.body_hash ≠ "")
        f.body_hash f ⟨rfl, hf⟩ acc h)
    · rw [if_neg hf]
      exact ih _ h

/-- A lowercase ASCII letter is unchanged by `Char.toLower`. -/
theorem lower_toLower_self (c : Char) (h : c.isLower = true) : c.toLower = c := by
  simp [Char.isLower] at h
  obtain ⟨h1, h2⟩ := h
  have h1' : 97 ≤ c.val.toNat := UInt32.le_toNat_of_le (by norm_num) h1
  rw [Char.toLower]
  rw [if_neg]
  rw [Char.toNat]
  omega

/-- A lowercase ASCII letter is not an uppercase one. -/
theorem lower_not_upper (c : Char) (h : c.isLower = true) : c.isUpper = false := by
  simp [Char.isLower] at h
  have h1' : 97 ≤ c.val.toNat := UInt32.le_toNat_of_le (by norm_num) h.1
  simp [Char.isUpper]
  intro _
  by_contra hle
  simp at hle
  have := UInt32.toNat_le_of_le (m := 90) (by norm_num) hle
  omega

/-- A lowercase ASCII letter is not an underscore. -/
theorem lower_ne_underscore (c : Char) (h : c.isLower = true) : c ≠ '_' := by
  simp [Char.isLower] at h
  intro hc
  subst hc
  simp at h

/-- For a name matched by `^[a-z]+[A-Z]`, the trailing `.lstrip("_")` of
`_to_snake_case` is a no-op: the result starts with the name's original
lowercase first letter. -/
theorem to_snake_case_no_lstrip (name : String) (h : regex_camel_match name = true) :
    to_snake_case name = lowerAll (underscoreBeforeUppers name) := by
  rw [regex_camel_match] at h
  rcases hl : name.toList with _ | ⟨c, rest⟩
  · rw [hl] at h
    exact absurd h (by simp)
  · rw [hl] at h
    obtain ⟨hc, -⟩ : c.isLower = true ∧ camelTail rest = true := by simpa using h
    have hup : c.isUpper = false := lower_not_upper c hc
    have hlow : c.toLower = c := lower_toLower_self c hc
    have hne : c ≠ '_' := lower_ne_underscore c hc
    simp [to_snake_case, lstripUnderscores, lowerAll, underscoreBeforeUppers,
      show name.data = c :: rest from hl, hup, hlow, List.dropWhile_cons, hne]

/-- C5 counterexample.  A body whose first statement is the bare numeric
constant `42` (not a string literal): `_hash_function_body` still drops
it — the function is treated as empty-bodied and excluded from hashing —
whereas normalization that dropped the first statement *only* for a bare
string literal would keep the statement and hash the non-empty body. -/
theorem C5_counterexample :
    hash_function_body [.sExprStmt (.constNode (.int 42))] = ""
    ∧ specDropDocstring [.sExprStmt (.constNode (.int 42))]
        = [.sExprStmt (.constNode (.int 42))]
    ∧ specDropLeadingConst [.sExprStmt (.constNode (.int 42))] = [] := by
  exact ⟨rfl, rfl, rfl⟩

/-- C5 (amended).  Body normalization drops the first statement exactly
when it is a bare constant-literal expression (a docstring, but equally
any other bare constant); functions whose remaining body is empty hash to
the falsy `""`, are excluded from hashing and never appear in a duplicate
group; every reported duplicate group consists of hash-identical members
and spans more than one distinct file; concretely, the cross-file copy of
`dupBody` is reported once while the single-file repetition is not. -/
theorem C5_duplication_rules :
    (∀ body : List PNode,
      hash_function_body body =
        (if (specDropLeadingConst body).isEmpty then ""
         else md5hex8 (astDumpList (specDropLeadingConst body)))) ∧
    (∀ (functions : List FuncInfo) (f : FuncInfo), f.body_hash = "" →
      ∀ g ∈ find_duplicates functions, f ∉ g.2) ∧
    (∀ (functions : List FuncInfo), ∀ g ∈ find_duplicates functions,
      (∀ x ∈ g.2, x.body_hash = g.1 ∧ x.body_hash ≠ "")
        ∧ 1 < (groupFiles g.2).card) ∧
    (find_duplicates (crossFileFuncs ++ [emptyHashFn])).map
        (fun g => g.2.map FuncInfo.file) = [["a.py", "b.py"]] ∧
    find_duplicates (extract_functions "a.py" singleFileRepeatTree) = [] := by
  refine ⟨?_, ?_, ?_, by decide, by decide⟩
  · intro body
    cases body with
    | nil => rfl
    | cons s rest =>
      cases s <;> rfl
  · intro functions f hf g hg hmem
    simp only [find_duplicates] at hg
    have hgrp := (List.mem_filter.mp hg).1
    have := by_hash_inv functions [] (by simp) g hgrp f hmem
    exact this.2 hf
  · intro functions g hg
    simp only [find_duplicates] at hg
    obtain ⟨hgrp, hcard⟩ := List.mem_filter.mp hg
    exact ⟨by_hash_inv functions [] (by simp) g hgrp, of_decide_eq_true hcard⟩

/-- C5 witness: applying the amended claim at the concrete input — the
docstring-only record has the falsy hash and is absent from the concrete
cross-file duplicate group. -/
theorem C5_duplication_rules_witness : emptyHashFn ∉ c5WitnessGroup.2 :=
  C5_duplication_rules.2.1 (crossFileFuncs ++ [emptyHashFn]) emptyHashFn rfl
    c5WitnessGroup (by decide)

/-- C7 counterexample.  The function name `"a1B"` starts with a lowercase
letter, later contains an uppercase letter, contains no underscore and is
not a dunder name — yet `_check_function_name` reports nothing, because
the actual pattern `^[a-z]+[A-Z]` requires the uppercase letter to follow
a *contiguous* run of lowercase letters, which the digit breaks. -/
theorem C7_counterexample :
    check_function_name "a1B" 1 = []
    ∧ "a1B".toList.head? = some 'a'
    ∧ ('a').isLower = true
    ∧ "a1B".toList.tail.any Char.isUpper = true
    ∧ "a1B".toList.contains '_' = false
    ∧ (pyStartsWith "a1B" "__" && pyEndsWith "a1B" "__") = false := by
  exact ⟨by decide, by decide, by decide, by decide, by decide, by decide⟩

/-- C7 (amended).  For every non-dunder function name matching
`^[a-z]+[A-Z]` (one or more lowercase letters immediately followed by an
uppercase letter) and containing no underscore, the naming analyzer
reports a camel_case issue whose suggestion is the name with an
underscore inserted before each uppercase letter and the whole string
lowercased (the code's additional `lstrip("_")` is a no-op for such
names); in particular `calculateTotal` yields `calculate_total`. -/
theorem C7_camel_case :
    (∀ (name : String) (lineno : Nat),
      (pyStartsWith name "__" && pyEndsWith name "__") = false →
      regex_camel_match name = true →
      name.toList.contains '_' = false →
      ({ name := name, file := "", line := lineno, issue_type := "camel_case",
         suggestion := "Use snake_case: " ++ lowerAll (underscoreBeforeUppers name) }
        : NamingIssue) ∈ check_function_name name lineno) ∧
    naming_issues [.functionDef "calculateTotal" 0 0 0 [.sPass] 3 (some 4)]
      = [{ name := "calculateTotal", file := "", line := 3,
           issue_type := "camel_case",
           suggestion := "Use snake_case: calculate_total" }] := by
  refine ⟨?_, by decide⟩
  intro name lineno hd hre hund
  rw [check_function_name, if_neg (by simp [hd])]
  refine List.mem_append_right _ ?_
  rw [if_pos (by simp only [Bool.and_eq_true, Bool.not_eq_true']; exact ⟨hre, hund⟩)]
  rw [to_snake_case_no_lstrip name hre]
  exact List.mem_singleton.mpr rfl

/-- C7 witness: the amended claim applied at `calculateTotal`. -/
theorem C7_camel_case_witness :
    ({ name := "calculateTotal", file := "", line := 3,
       issue_type := "camel_case",
       suggestion := "Use snake_case: "
         ++ lowerAll (underscoreBeforeUppers "calculateTotal") } : NamingIssue)
      ∈ check_function_name "calculateTotal" 3 :=
  C7_camel_case.1 "calculateTotal" 3 (by decide) (by decide) (by decide)

/-- C9.  `_extract_functions` matches only `ast.FunctionDef` nodes: a file
whose walked tree contains no synchronous definition yields no records,
so byte-identical async bodies across two files produce neither a
duplicate-body group nor a same-name group — while the complexity and
naming analyzers do visit async definitions and produce records/issues
for them. -/
theorem C9_async_excluded :
    (∀ (file : String) (tree : List PNode),
      ((walkList tree).all (fun n => !isSyncFunctionDef n)) = true →
      extract_functions file tree = []) ∧
    extract_functions "a.py" asyncDupTree = [] ∧
    find_duplicates (extract_functions "a.py" asyncDupTree
      ++ extract_functions "b.py" asyncDupTree) = [] ∧
    find_same_name_functions (extract_functions "a.py" asyncDupTree
      ++ extract_functions "b.py" asyncDupTree) = [] ∧
    collect_functions asyncDupTree ≠ [] ∧
    naming_issues asyncCamelTree ≠ [] := by
  refine ⟨?_, by decide, by decide, by decide, by decide, by decide⟩
  intro file tree h
  rw [extract_functions, List.filterMap_eq_nil_iff]
  intro n hn
  have hall := List.all_eq_true.mp h n hn
  cases n <;> simp_all [isSyncFunctionDef]

/-- C9 witness: the general sync-only extraction applied to the concrete
async-only module. -/
theorem C9_async_excluded_witness : extract_functions "c.py" asyncDupTree = [] :=
  C9_async_excluded.1 "c.py" asyncDupTree (by decide)

/-- Files whose parse fails contribute nothing to the record list. -/
theorem flatMap_filter_parsed (files : List ParseOutcome) :
    files.flatMap analyze_file
      = (files.filter (fun f => (parse_file f).isSome)).flatMap analyze_file := by
  induction files with
  | nil => rfl
  | cons f rest ih =>
    by_cases hp : (parse_file f).isSome
    · simp [List.filter_cons, hp, ih]
    · have he : analyze_file f = [] := by
        rw [analyze_file]
        rcases hq : parse_file f with _ | t
        · rfl
        · rw [hq] at hp; simp at hp
      simp [List.filter_cons, hp, he, ih]

/-- C8.  An unparsable or undecodable file contributes zero function
records (the record list equals the one computed from the successfully
parsed files alone, and both failure outcomes analyze to `[]` — modelled
totally, since `parse_file` catches both exception types), while the
"files analyzed" count still counts every file; concretely a batch of
three files with a failing one in the middle reports 3 files and the
records of the two good ones. -/
theorem C8_parse_failure_skipped :
    (∀ files : List ParseOutcome,
      (collect_metrics files).2 = files.length
      ∧ (collect_metrics files).1
          = (files.filter (fun f => (parse_file f).isSome)).flatMap analyze_file) ∧
    analyze_file .syntaxError = [] ∧
    analyze_file .decodeError = [] ∧
    collect_metrics [.ok dupTree, .syntaxError, .ok dupTree]
      = (collect_functions dupTree ++ collect_functions dupTree, 3) ∧
    format_header "Complexity Analysis" "proj"
        (collect_metrics [.ok dupTree, .syntaxError, .ok dupTree]).2 2
      = ["# Complexity Analysis: proj", "",
         "Analyzed 3 files, found 2 functions.", ""] := by
  refine ⟨?_, rfl, rfl, by decide, by decide⟩
  intro files
  exact ⟨rfl, flatMap_filter_parsed files⟩

/-- C10.  When the directory root itself has a component beginning with a
dot (a relative `../` prefix, or a hidden directory as root), every file
beneath it is excluded by the hidden-component filter — in both the
shared collector and the architecture analyzer's inline copy — and the
analyzer returns the "No Python files found in <path>" message, even when
`.py` files exist under the root. -/
theorem C10_hidden_root :
    (∀ (path : String) (rootParts : List String) (relFiles : List (List String)),
      (rootParts.any (fun p => pyStartsWith p ".")) = true →
      collect_py_files_dir rootParts relFiles = []
      ∧ arch_collect rootParts relFiles = []
      ∧ no_files_guard path (arch_collect rootParts relFiles)
          = some ("No Python files found in " ++ path)) ∧
    collect_py_files_dir ["..", "proj"] [["pkg", "a.py"], ["b.py"]] = [] ∧
    no_files_guard ".hidden" (arch_collect [".hidden"] [["a.py"]])
      = some "No Python files found in .hidden" := by
  refine ⟨?_, by decide, by decide⟩
  intro path rootParts relFiles h
  have hfilter :
      (relFiles.map (fun rel => rootParts ++ rel)).filter keepPyFile = [] := by
    rw [List.filter_eq_nil_iff]
    intro f hf
    rcases List.mem_map.mp hf with ⟨rel, -, rfl⟩
    have hany : ((rootParts ++ rel).any (fun p => pyStartsWith p ".")) = true := by
      rw [List.any_append, h, Bool.true_or]
    simp [keepPyFile, hany]
  refine ⟨?_, ?_, ?_⟩
  · rw [collect_py_files_dir, hfilter]; rfl
  · rw [arch_collect, hfilter]
  · rw [no_files_guard, arch_collect, hfilter]
    rfl

/-- C10 witness: the general exclusion applied to the concrete relative
root `../proj` holding two Python files. -/
theorem C10_hidden_root_witness :
    no_files_guard "../proj" (arch_collect ["..", "proj"] [["pkg", "a.py"], ["b.py"]])
      = some "No Python files found in ../proj" :=
  (C10_hidden_root.1 "../proj" ["..", "proj"] [["pkg", "a.py"], ["b.py"]]
    (by decide)).2.2

/-- C6 counterexample.  `analyze` with `focus = "duplication"` matches no
branch: even with every supplied sub-analysis carrying issues (and hence
regardless of any duplication present in the tree), the combined report
is just the header plus the no-issues Summary — it contains no findings
of any analyzer, let alone duplication findings. -/
theorem C6_counterexample :
    analyze_combined "duplication" issueSub issueSub issueSub
        ["# Code Analysis: proj", ""]
      = ["# Code Analysis: proj", "", "## Summary", "",
         "No major code quality issues found. The codebase looks clean!"] := by
  decide

/-- C6 (amended).  The `analyze` orchestrator's focus selects only among
`complexity`, `architecture`, `naming` and `all`: with
`focus = "duplication"` it runs no analyzer and returns the header plus
the no-issues Summary, for every value of the sub-analyses.  Duplication
focus belongs to the `refactor` orchestrator, whose `focus =
"duplication"` selects exactly the duplication analyzer's issues; on a
source tree with cross-file duplicate function bodies those issues are
non-empty, all in category `duplication`, and include one
duplicate-function-bodies finding. -/
theorem C6_focus_dispatch :
    (∀ (comp arch naming : SubReport) (header : List String),
      analyze_combined "duplication" comp arch naming header
        = header ++ ["## Summary", "",
            "No major code quality issues found. The codebase looks clean!"]) ∧
    (∀ dup comp arch : List RefactorIssue,
      refactor_selected_issues "duplication" dup comp arch = dup) ∧
    analyze_duplication crossFileFuncs ≠ [] ∧
    (analyze_duplication crossFileFuncs).all
      (fun i => i.category == "duplication") = true ∧
    (analyze_duplication crossFileFuncs).countP
      (fun i => strContainsSub i.title "Duplicate function bodies") = 1 := by
  refine ⟨?_, ?_, by decide, by decide, by decide⟩
  · intro comp arch naming header
    simp [analyze_combined, focusSelects]
  · intro dup comp arch
    simp [refactor_selected_issues, focusSelects]

end AgentTools
